import Mathlib

/-!
Shallow embedding of the `async-broadcast-channel` crate (src/lib.rs).

The crate builds a broadcast channel on top of the external point-to-point
channel primitive `async_channel` (spec §1 calls it `Channel<T>` and gives its
contract).  The broadcast state is a shared registry
`Arc<RwLock<Vec<async_channel::Sender<T>>>>`; `Sender::try_send`/`send` fan a
message out to every registry entry, fail-fast; `Receiver::clone` creates a
fresh point-to-point channel and appends its producer half to the registry.

Modelling choices:
* A point-to-point channel is a `Channel T`: its capacity policy, its queued
  messages (oldest first), and whether its consumer half (resp. producer half)
  has been dropped.  Its operations follow the external collaborator contract
  stated in spec §1: `try_send` errors `closed msg` when the consumer side is
  gone, `full msg` when a bounded buffer is at capacity, otherwise enqueues;
  `try_recv` dequeues, and on an empty buffer errors `closed` exactly when the
  producer side is gone, `empty` otherwise.
* The registry is a `List (Channel T)`: entry `i` stores the state of the
  channel whose producer half sits at index `i` of the `Vec`.
* The async `send` suspends while a bounded destination is full and resolves
  when space frees or the channel closes; its completed per-entry outcome is
  `Channel.sendStep`: error `closed msg` if the consumer side is gone,
  otherwise the message is enqueued.
* `Arc` aliasing is modelled by a `Store`, a list of registries; a broadcast
  `Sender`/`Receiver` holds the index of its registry, so "same registry
  reference" is index equality.
-/

namespace AsyncBroadcast

/-- Error of a non-suspending send on the point-to-point channel
(`async_channel::TrySendError`): the unconsumed message is carried inside. -/
inductive TrySendError (T : Type) where
  | full (msg : T)
  | closed (msg : T)
deriving DecidableEq

/-- The message carried inside a `TrySendError`. -/
def TrySendError.payload {T : Type} : TrySendError T → T
  | .full m => m
  | .closed m => m

/-- Error of a non-suspending receive on the point-to-point channel
(`async_channel::TryRecvError`). -/
inductive TryRecvError where
  | empty
  | closed
deriving DecidableEq

/-- State of one point-to-point channel of the external collaborator
(`async_channel`), as contracted in spec §1: capacity policy, queued messages
(oldest first), and whether each half has been fully dropped. -/
structure Channel (T : Type) where
  cap : Option Nat
  buffer : List T
  receiverDropped : Bool
  senderDropped : Bool
deriving DecidableEq

/-- A freshly created channel: empty buffer, both halves alive
(`async_channel::bounded` / `async_channel::unbounded`). -/
def freshChannel {T : Type} (cap : Option Nat) : Channel T :=
  { cap := cap, buffer := [], receiverDropped := false, senderDropped := false }

/-- Model of `async_channel::Sender::try_send`, per the spec §1 contract: `closed msg`
when the consumer side is dropped, `full msg` when a bounded buffer is at
capacity, otherwise the message is enqueued at the back. -/
def Channel.try_send {T : Type} (c : Channel T) (msg : T) :
    Except (TrySendError T) (Channel T) :=
  if c.receiverDropped then
    .error (.closed msg)
  else
    match c.cap with
    | some n =>
        if n ≤ c.buffer.length then .error (.full msg)
        else .ok { c with buffer := c.buffer ++ [msg] }
    | none => .ok { c with buffer := c.buffer ++ [msg] }

/-- Completed outcome of one per-entry step of the suspending
`async_channel::Sender::send` (spec §1): it resolves with `closed msg` when the
consumer side is gone, otherwise it eventually enqueues the message (the
suspension while a bounded buffer is full is abstracted away, as the model has
no real time). -/
def Channel.sendStep {T : Type} (c : Channel T) (msg : T) :
    Except (TrySendError T) (Channel T) :=
  if c.receiverDropped then
    .error (.closed msg)
  else
    .ok { c with buffer := c.buffer ++ [msg] }

/-- Model of `async_channel::Receiver::try_recv`, per the spec §1 contract: dequeue the
oldest message; on an empty buffer, `closed` exactly when the producer side is
gone, `empty` otherwise. -/
def Channel.try_recv {T : Type} (c : Channel T) :
    Except TryRecvError (T × Channel T) :=
  match c.buffer with
  | [] => .error (if c.senderDropped then .closed else .empty)
  | x :: rest => .ok (x, { c with buffer := rest })

/-- The fan-out loop of `Sender::try_send` / `Sender::send`
(`for sender in self.channel_senders.read()... { sender.try_send(msg.clone())? }`),
parameterised by the per-entry step.  It walks the registry in order, applies
`step` to each entry with a clone of `msg` (clones are modelled by value, so a
clone is the value itself), stops at the first error and returns it; entries
at and after the failing one keep their state.  Returns the first error (if
any) together with the updated registry. -/
def fanOutWith {T : Type}
    (step : Channel T → T → Except (TrySendError T) (Channel T))
    (msg : T) : List (Channel T) → Option (TrySendError T) × List (Channel T)
  | [] => (none, [])
  | c :: rest =>
    match step c msg with
    | .error e => (some e, c :: rest)
    | .ok c' =>
      let r := fanOutWith step msg rest
      (r.1, c' :: r.2)

/-- One call of the module: either `Sender::try_send msg` or `Sender::send msg`
(both fan the same way; they differ only in the per-entry step). -/
inductive SendCall (T : Type) where
  | trys (msg : T)
  | asyncs (msg : T)
deriving DecidableEq

/-- The message of a call. -/
def SendCall.msg {T : Type} : SendCall T → T
  | .trys m => m
  | .asyncs m => m

/-- The messages of a sequence of calls, in call order. -/
def msgsOf {T : Type} (calls : List (SendCall T)) : List T :=
  calls.map SendCall.msg

/-- Run a sequence of `try_send`/`send` calls against a registry; the `Bool`
is `true` iff every call returned `Ok`.  The sequence stops at the first
failing call (its partial fan-out effect is kept). -/
def sendCalls {T : Type} (reg : List (Channel T)) :
    List (SendCall T) → Bool × List (Channel T)
  | [] => (true, reg)
  | .trys m :: rest =>
    match fanOutWith Channel.try_send m reg with
    | (none, reg') => sendCalls reg' rest
    | (some _, reg') => (false, reg')
  | .asyncs m :: rest =>
    match fanOutWith Channel.sendStep m reg with
    | (none, reg') => sendCalls reg' rest
    | (some _, reg') => (false, reg')

/-- Call `Channel.try_recv` `n` times on a channel, collecting the successfully
received messages in order (stopping at the first `Empty`/`Closed`). -/
def tryRecvMany {T : Type} : Nat → Channel T → List T × Channel T
  | 0, c => ([], c)
  | n + 1, c =>
    match c.try_recv with
    | .ok (x, c') =>
      let r := tryRecvMany n c'
      (x :: r.1, r.2)
    | .error _ => ([], c)

/-- Replace the channel at index `i` of a registry by `f` of it (out-of-range
indices leave the registry unchanged). -/
def modifyIdx {T : Type} (f : Channel T → Channel T) :
    List (Channel T) → Nat → List (Channel T)
  | [], _ => []
  | c :: rest, 0 => f c :: rest
  | c :: rest, n + 1 => c :: modifyIdx f rest n

/-! ### The store layer: `Arc` aliasing

A `Store` holds every registry ever created; a broadcast handle names its
registry by index, so two handles alias exactly when they hold the same index
— the model of sharing one `Arc<RwLock<Vec<...>>>`. -/

/-- All live registries; a registry reference is an index into this list. -/
abbrev Store (T : Type) : Type := List (List (Channel T))

/-- The broadcast `Sender<T>`: holds only a reference to the registry
(`channel_senders: ChannelSenders<T>`). -/
structure Sender where
  reg : Nat
deriving DecidableEq

/-- The broadcast `Receiver<T>`: a reference to the registry, the consumer half of its own
private channel (named by its registry index), and the stored capacity
policy. -/
structure Receiver where
  reg : Nat
  idx : Nat
  cap : Option Nat
deriving DecidableEq

/-- Model of `broadcast_channel(cap)`: create one channel, make its producer half the
sole entry of a brand-new registry, and return a `Sender` and a `Receiver`
sharing that registry, the `Receiver` holding the channel's consumer half and
the capacity configuration. -/
def broadcast_channel {T : Type} (st : Store T) (cap : Option Nat) :
    Store T × Sender × Receiver :=
  (List.append st [[freshChannel cap]],
   { reg := st.length },
   { reg := st.length, idx := 0, cap := cap })

/-- Model of `bounded(cap)`, which is `broadcast_channel(Some(cap))`. -/
def bounded {T : Type} (st : Store T) (cap : Nat) : Store T × Sender × Receiver :=
  broadcast_channel st (some cap)

/-- Model of `unbounded()`, which is `broadcast_channel(None)`. -/
def unbounded {T : Type} (st : Store T) : Store T × Sender × Receiver :=
  broadcast_channel st none

/-- Model of `Sender::clone` (derived `Clone`): duplicates the `Arc` reference; no new
channel, no registry change. -/
def Sender.clone (s : Sender) : Sender :=
  { reg := s.reg }

/-- Model of `Sender::try_send(msg)`: take a read snapshot of the registry and fan the
message out with `Channel.try_send`. -/
def Sender.try_send {T : Type} (s : Sender) (st : Store T) (msg : T) :
    Option (TrySendError T) × Store T :=
  let r := fanOutWith Channel.try_send msg (st.getD s.reg [])
  (r.1, st.set s.reg r.2)

/-- Model of `Sender::send(msg)` (completed outcome): same fan-out with the per-entry
step of the suspending send. -/
def Sender.send {T : Type} (s : Sender) (st : Store T) (msg : T) :
    Option (TrySendError T) × Store T :=
  let r := fanOutWith Channel.sendStep msg (st.getD s.reg [])
  (r.1, st.set s.reg r.2)

/-- Model of `Receiver::clone`: create a new channel with the stored capacity policy,
append its producer half to the shared registry, and return a `Receiver`
holding the new channel's consumer half, the same registry reference, and the
same capacity value. -/
def Receiver.clone {T : Type} (st : Store T) (r : Receiver) :
    Store T × Receiver :=
  let reg := st.getD r.reg []
  (st.set r.reg (List.append reg [freshChannel r.cap]),
   { reg := r.reg, idx := reg.length, cap := r.cap })

/-- Model of `Receiver::try_recv`: delegate to the private channel's `try_recv`;
on success the dequeued channel state is written back. -/
def Receiver.try_recv {T : Type} (st : Store T) (r : Receiver) :
    Except TryRecvError T × Store T :=
  let reg := st.getD r.reg []
  match (reg.getD r.idx (freshChannel r.cap)).try_recv with
  | .ok (x, c') => (.ok x, st.set r.reg (modifyIdx (fun _ => c') reg r.idx))
  | .error e => (.error e, st)

/-- Dropping a `Receiver`: its private channel's consumer half is gone, so
that channel reports `closed` to future sends; the registry entry itself stays
(spec §4.3: the dead entry is not removed). -/
def Receiver.drop {T : Type} (st : Store T) (r : Receiver) : Store T :=
  st.set r.reg
    (modifyIdx (fun c => { c with receiverDropped := true })
      (st.getD r.reg []) r.idx)

/-! ### Lifecycle model of one broadcast group

For the ownership claims (registry entry count, what dropping handles does)
the group is a state machine: counts of live `Sender` and `Receiver` handles
plus the registry.  The registry `Vec` owns the producer half of every entry's
channel and lives as long as any handle does (`Arc` semantics), so a channel's
producer half is dropped only when the whole group is destroyed — the
`destroy` step, enabled only once no handle is left. -/

/-- One broadcast group: live handle counts and the shared registry. -/
structure GroupState (T : Type) where
  senders : Nat
  receivers : Nat
  registry : List (Channel T)
deriving DecidableEq

/-- The group right after `broadcast_channel(cap)`: one `Sender`, one
`Receiver`, a one-entry registry. -/
def initGroup {T : Type} (cap : Option Nat) : GroupState T :=
  { senders := 1, receivers := 1, registry := [freshChannel cap] }

/-- The operations of the module, as steps on a group's state.  `destroy` is
the `Arc` drop of the registry itself, possible only when no handle is left;
it is the only step that drops a producer half. -/
inductive Step {T : Type} : GroupState T → GroupState T → Prop where
  | trySendStep (g : GroupState T) (msg : T) :
      Step g { g with registry := (fanOutWith Channel.try_send msg g.registry).2 }
  | sendStep (g : GroupState T) (msg : T) :
      Step g { g with registry := (fanOutWith Channel.sendStep msg g.registry).2 }
  | senderClone (g : GroupState T) :
      0 < g.senders →
      Step g { g with senders := g.senders + 1 }
  | receiverClone (g : GroupState T) (cap : Option Nat) :
      0 < g.receivers →
      Step g { g with receivers := g.receivers + 1,
                      registry := List.append g.registry [freshChannel cap] }
  | tryRecvStep (g : GroupState T) (i : Nat) (c c' : Channel T) (x : T) :
      g.registry[i]? = some c →
      c.try_recv = .ok (x, c') →
      Step g { g with registry := modifyIdx (fun _ => c') g.registry i }
  | dropSender (g : GroupState T) :
      0 < g.senders →
      Step g { g with senders := g.senders - 1 }
  | dropReceiver (g : GroupState T) (i : Nat) :
      0 < g.receivers →
      Step g { g with receivers := g.receivers - 1,
                      registry := modifyIdx
                        (fun c => { c with receiverDropped := true }) g.registry i }
  | destroy (g : GroupState T) :
      g.senders = 0 →
      g.receivers = 0 →
      Step g { g with registry :=
        g.registry.map (fun c => { c with senderDropped := true }) }

/-- States a group can reach from a start state by module operations. -/
inductive Reachable {T : Type} (g0 : GroupState T) : GroupState T → Prop where
  | refl : Reachable g0 g0
  | tail {g g' : GroupState T} : Reachable g0 g → Step g g' → Reachable g0 g'

/-! ### Concrete states used to exercise the theorems -/

/-- A registry whose first entry is a `bounded(1)` channel already holding one
message and whose second entry is a fresh unbounded channel. -/
def regFullThenFresh : List (Channel Nat) :=
  [{ cap := some 1, buffer := [9], receiverDropped := false, senderDropped := false },
   freshChannel none]

/-- A one-entry registry whose channel's consumer half has been dropped. -/
def regDead : List (Channel Nat) :=
  [{ cap := none, buffer := [], receiverDropped := true, senderDropped := false }]

/-- An unbounded channel holding the messages `1` and `2`. -/
def chanOneTwo : Channel Nat :=
  { cap := none, buffer := [1, 2], receiverDropped := false, senderDropped := false }

/-! ### Basic lemmas about the per-entry steps -/

/-- A successful `try_send` enqueues the message at the back and changes
nothing else. -/
theorem Channel.try_send_ok {T : Type} {c c' : Channel T} {msg : T}
    (h : c.try_send msg = .ok c') :
    c' = { c with buffer := c.buffer ++ [msg] } := by
  unfold Channel.try_send at h
  split at h
  · simp at h
  · split at h
    · split at h
      · simp at h
      · simp only [Except.ok.injEq] at h
        exact h.symm
    · simp only [Except.ok.injEq] at h
      exact h.symm

/-- A successful `sendStep` enqueues the message at the back and changes
nothing else. -/
theorem Channel.sendStep_ok {T : Type} {c c' : Channel T} {msg : T}
    (h : c.sendStep msg = .ok c') :
    c' = { c with buffer := c.buffer ++ [msg] } := by
  unfold Channel.sendStep at h
  split at h
  · simp at h
  · simp only [Except.ok.injEq] at h
    exact h.symm

/-- A failed `try_send` carries exactly the message that was being sent. -/
theorem Channel.try_send_error_payload {T : Type} {c : Channel T} {msg : T}
    {e : TrySendError T} (h : c.try_send msg = .error e) :
    e.payload = msg := by
  unfold Channel.try_send at h
  split at h
  · simp only [Except.error.injEq] at h
    subst h; rfl
  · split at h
    · split at h
      · simp only [Except.error.injEq] at h
        subst h; rfl
      · simp at h
    · simp at h

/-- A failed `sendStep` carries exactly the message that was being sent. -/
theorem Channel.sendStep_error_payload {T : Type} {c : Channel T} {msg : T}
    {e : TrySendError T} (h : c.sendStep msg = .error e) :
    e.payload = msg := by
  unfold Channel.sendStep at h
  split at h
  · simp only [Except.error.injEq] at h
    subst h; rfl
  · simp at h

/-- Predicate `isFanStep step` holds when `step` is one of the crate's two per-entry
fan-out steps. -/
def isFanStep {T : Type}
    (step : Channel T → T → Except (TrySendError T) (Channel T)) : Prop :=
  step = Channel.try_send ∨ step = Channel.sendStep

theorem isFanStep_ok {T : Type} {step} (hstep : isFanStep (T := T) step)
    {c c' : Channel T} {msg : T} (h : step c msg = .ok c') :
    c' = { c with buffer := c.buffer ++ [msg] } := by
  rcases hstep with h1 | h1 <;> subst h1
  · exact Channel.try_send_ok h
  · exact Channel.sendStep_ok h

theorem isFanStep_error_payload {T : Type} {step} (hstep : isFanStep (T := T) step)
    {c : Channel T} {msg : T} {e : TrySendError T} (h : step c msg = .error e) :
    e.payload = msg := by
  rcases hstep with h1 | h1 <;> subst h1
  · exact Channel.try_send_error_payload h
  · exact Channel.sendStep_error_payload h

/-! ### Fan-out lemmas -/

/-- If a fan-out reported no error, every registry entry — in place — got the
message enqueued, and nothing else changed. -/
theorem fanOutWith_none {T : Type} {step} (hstep : isFanStep (T := T) step)
    {msg : T} :
    ∀ (reg : List (Channel T)), (fanOutWith step msg reg).1 = none →
      (fanOutWith step msg reg).2 =
        reg.map (fun c => { c with buffer := c.buffer ++ [msg] }) := by
  intro reg
  induction reg with
  | nil => intro _; rfl
  | cons c rest ih =>
    intro h
    simp only [fanOutWith] at h ⊢
    cases hs : step c msg with
    | error e => rw [hs] at h; simp at h
    | ok c' =>
      rw [hs] at h
      simp only at h
      rw [List.map_cons]
      simp only
      rw [ih h, isFanStep_ok hstep hs]

/-- If a fan-out reported an error `e`, there is a first failing index `i`:
the step failed with `e` exactly there, every earlier entry took the message
successfully (and its updated state is in the output), and every entry from
`i` on is unchanged.  The output registry keeps its length. -/
theorem fanOutWith_some {T : Type} {step} {msg : T} :
    ∀ (reg : List (Channel T)) (e : TrySendError T),
      (fanOutWith step msg reg).1 = some e →
      (fanOutWith step msg reg).2.length = reg.length ∧
      ∃ i, i < reg.length ∧
        (∃ c, reg[i]? = some c ∧ step c msg = .error e) ∧
        (∀ j, j < i → ∃ c c', reg[j]? = some c ∧
          (fanOutWith step msg reg).2[j]? = some c' ∧ step c msg = .ok c') ∧
        (∀ j, i ≤ j → (fanOutWith step msg reg).2[j]? = reg[j]?) := by
  intro reg
  induction reg with
  | nil => intro e h; simp [fanOutWith] at h
  | cons c rest ih =>
    intro e h
    simp only [fanOutWith] at h ⊢
    cases hs : step c msg with
    | error e0 =>
      rw [hs] at h
      dsimp only at h ⊢
      simp only [Option.some.injEq] at h
      subst h
      refine ⟨rfl, 0, by simp, ⟨c, by simp, hs⟩, ?_, ?_⟩
      · intro j hj; omega
      · intro j _; rfl
    | ok c' =>
      rw [hs] at h
      dsimp only at h ⊢
      obtain ⟨hlen, i, hi, ⟨cf, hcf, hef⟩, hbefore, hafter⟩ := ih e h
      refine ⟨by simp [hlen], i + 1, by simpa using hi, ⟨cf, by simpa using hcf, hef⟩,
        ?_, ?_⟩
      · intro j hj
        cases j with
        | zero => exact ⟨c, c', by simp, by simp, hs⟩
        | succ k =>
          obtain ⟨a, b, ha, hb, hab⟩ := hbefore k (by omega)
          exact ⟨a, b, by simpa using ha, by simpa using hb, hab⟩
      · intro j hj
        cases j with
        | zero => omega
        | succ k =>
          simpa using hafter k (by omega)

@[simp]
theorem appendBuffer_nil {T : Type} (c : Channel T) :
    { c with buffer := c.buffer ++ ([] : List T) } = c := by
  cases c; simp

@[simp]
theorem msgsOf_nil {T : Type} : msgsOf ([] : List (SendCall T)) = [] := rfl

@[simp]
theorem msgsOf_cons {T : Type} (call : SendCall T) (rest : List (SendCall T)) :
    msgsOf (call :: rest) = call.msg :: msgsOf rest := rfl

/-- If every call of a `try_send`/`send` sequence returned `Ok`, then every
registry entry — in place — got exactly the sequence's messages enqueued at
the back, in call order. -/
theorem sendCalls_true {T : Type} :
    ∀ (calls : List (SendCall T)) (reg : List (Channel T)),
      (sendCalls reg calls).1 = true →
      (sendCalls reg calls).2 =
        reg.map (fun c => { c with buffer := c.buffer ++ msgsOf calls }) := by
  intro calls
  induction calls with
  | nil =>
    intro reg _
    simp [sendCalls]
  | cons call rest ih =>
    intro reg h
    cases call with
    | trys m =>
      simp only [sendCalls] at h ⊢
      cases hf : fanOutWith Channel.try_send m reg with
      | mk e1 reg1 =>
        cases e1 with
        | none =>
          rw [hf] at h
          dsimp only at h ⊢
          have h2 : reg1 = reg.map (fun c => { c with buffer := c.buffer ++ [m] }) := by
            have h3 := @fanOutWith_none T Channel.try_send (Or.inl rfl)
              m reg (by rw [hf])
            rw [hf] at h3
            exact h3
          rw [ih reg1 h, h2, List.map_map]
          have h4 : ((fun c : Channel T => { c with buffer := c.buffer ++ msgsOf rest }) ∘
              (fun c : Channel T => { c with buffer := c.buffer ++ [m] })) =
              (fun c : Channel T =>
                { c with buffer := c.buffer ++ msgsOf (SendCall.trys m :: rest) }) := by
            funext c
            simp [Function.comp, SendCall.msg]
          rw [h4]
        | some e => rw [hf] at h; simp at h
    | asyncs m =>
      simp only [sendCalls] at h ⊢
      cases hf : fanOutWith Channel.sendStep m reg with
      | mk e1 reg1 =>
        cases e1 with
        | none =>
          rw [hf] at h
          dsimp only at h ⊢
          have h2 : reg1 = reg.map (fun c => { c with buffer := c.buffer ++ [m] }) := by
            have h3 := @fanOutWith_none T Channel.sendStep (Or.inr rfl)
              m reg (by rw [hf])
            rw [hf] at h3
            exact h3
          rw [ih reg1 h, h2, List.map_map]
          have h4 : ((fun c : Channel T => { c with buffer := c.buffer ++ msgsOf rest }) ∘
              (fun c : Channel T => { c with buffer := c.buffer ++ [m] })) =
              (fun c : Channel T =>
                { c with buffer := c.buffer ++ msgsOf (SendCall.asyncs m :: rest) }) := by
            funext c
            simp [Function.comp, SendCall.msg]
          rw [h4]
        | some e => rw [hf] at h; simp at h

/-- Draining a channel whose buffer holds `msgs` by `msgs.length` calls of
`try_recv` yields `msgs`, in order. -/
theorem tryRecvMany_of_buffer {T : Type} :
    ∀ (msgs : List T) (c : Channel T), c.buffer = msgs →
      (tryRecvMany msgs.length c).1 = msgs := by
  intro msgs
  induction msgs with
  | nil => intro c _; rfl
  | cons m ms ih =>
    intro c h
    obtain ⟨cp, buf, rd, sd⟩ := c
    simp only at h
    subst h
    have hr : Channel.try_recv ⟨cp, m :: ms, rd, sd⟩ =
        .ok (m, ⟨cp, ms, rd, sd⟩) := rfl
    simp only [List.length_cons, tryRecvMany, hr]
    rw [ih ⟨cp, ms, rd, sd⟩ rfl]

/-- A fan-out never changes the number of registry entries, whatever the
per-entry step does. -/
theorem fanOutWith_length {T : Type} {step} (msg : T) :
    ∀ (reg : List (Channel T)), (fanOutWith step msg reg).2.length = reg.length := by
  intro reg
  induction reg with
  | nil => rfl
  | cons c rest ih =>
    simp only [fanOutWith]
    cases hs : step c msg with
    | error e => simp
    | ok c' => simpa using ih

/-- A fan-out keeps every entry in place: the entry at index `i` afterwards is
the entry at index `i` before, with the same capacity and liveness flags, and
a buffer either untouched or grown by exactly the sent message. -/
theorem fanOutWith_getElem {T : Type} {step} (hstep : isFanStep (T := T) step)
    (msg : T) :
    ∀ (reg : List (Channel T)) (i : Nat) (c : Channel T), reg[i]? = some c →
      ∃ c', (fanOutWith step msg reg).2[i]? = some c' ∧
        c'.cap = c.cap ∧ c'.receiverDropped = c.receiverDropped ∧
        c'.senderDropped = c.senderDropped ∧
        (c'.buffer = c.buffer ∨ c'.buffer = c.buffer ++ [msg]) := by
  intro reg
  induction reg with
  | nil => intro i c hc; simp at hc
  | cons c0 rest ih =>
    intro i c hc
    simp only [fanOutWith]
    cases hs : step c0 msg with
    | error e =>
      exact ⟨c, by simpa using hc, rfl, rfl, rfl, Or.inl rfl⟩
    | ok c0' =>
      dsimp only
      cases i with
      | zero =>
        simp only [List.getElem?_cons_zero, Option.some.injEq] at hc
        subst hc
        refine ⟨c0', by simp, ?_⟩
        rw [isFanStep_ok hstep hs]
        exact ⟨rfl, rfl, rfl, Or.inr rfl⟩
      | succ k =>
        simp only [List.getElem?_cons_succ] at hc
        obtain ⟨c', h1, h2⟩ := ih k c hc
        exact ⟨c', by simpa using h1, h2⟩

@[simp]
theorem modifyIdx_length {T : Type} (f : Channel T → Channel T) :
    ∀ (l : List (Channel T)) (i : Nat), (modifyIdx f l i).length = l.length := by
  intro l
  induction l with
  | nil => intro i; rfl
  | cons c rest ih =>
    intro i
    cases i with
    | zero => rfl
    | succ k => simp [modifyIdx, ih k]

/-- Every element of a modified registry is an old element or the image of
one. -/
theorem modifyIdx_mem {T : Type} (f : Channel T → Channel T) :
    ∀ (l : List (Channel T)) (i : Nat) (a : Channel T),
      a ∈ modifyIdx f l i → a ∈ l ∨ ∃ b ∈ l, a = f b := by
  intro l
  induction l with
  | nil => intro i a ha; cases ha
  | cons c rest ih =>
    intro i a ha
    cases i with
    | zero =>
      rcases List.mem_cons.mp ha with h | h
      · exact Or.inr ⟨c, List.mem_cons_self c rest, h⟩
      · exact Or.inl (List.mem_cons_of_mem c h)
    | succ k =>
      rcases List.mem_cons.mp ha with h | h
      · exact Or.inl (h ▸ List.mem_cons_self c rest)
      · rcases ih k a h with h1 | ⟨b, hb, h2⟩
        · exact Or.inl (List.mem_cons_of_mem c h1)
        · exact Or.inr ⟨b, List.mem_cons_of_mem c hb, h2⟩

/-- A successful `try_recv` only shrinks the buffer; both liveness flags and
the capacity are untouched. -/
theorem Channel.try_recv_ok {T : Type} {c c' : Channel T} {x : T}
    (h : c.try_recv = .ok (x, c')) :
    c'.cap = c.cap ∧ c'.receiverDropped = c.receiverDropped ∧
    c'.senderDropped = c.senderDropped := by
  unfold Channel.try_recv at h
  split at h
  · simp at h
  · simp only [Except.ok.injEq, Prod.mk.injEq] at h
    rw [← h.2]
    exact ⟨rfl, rfl, rfl⟩

/-- No module operation shrinks the registry. -/
theorem step_registry_mono {T : Type} {g g' : GroupState T} (h : Step g g') :
    g.registry.length ≤ g'.registry.length := by
  cases h <;>
    simp [fanOutWith_length, modifyIdx_length, List.length_append, List.length_map]

/-- A group's registry is clean when no entry's producer half is dropped. -/
def cleanRegistry {T : Type} (g : GroupState T) : Prop :=
  ∀ c ∈ g.registry, c.senderDropped = false

/-- A fan-out never drops a producer half. -/
theorem fanOutWith_clean {T : Type} {step} (hstep : isFanStep (T := T) step)
    (msg : T) :
    ∀ (reg : List (Channel T)), (∀ c ∈ reg, c.senderDropped = false) →
      ∀ c' ∈ (fanOutWith step msg reg).2, c'.senderDropped = false := by
  intro reg
  induction reg with
  | nil => intro _ c' hc'; cases hc'
  | cons c0 rest ih =>
    intro hclean c' hc'
    simp only [fanOutWith] at hc'
    cases hs : step c0 msg with
    | error e =>
      rw [hs] at hc'
      exact hclean c' hc'
    | ok c0' =>
      rw [hs] at hc'
      dsimp only at hc'
      rcases List.mem_cons.mp hc' with h | h
      · subst h
        rw [isFanStep_ok hstep hs]
        exact hclean c0 (List.mem_cons_self c0 rest)
      · exact ih (fun c hc => hclean c (List.mem_cons_of_mem c0 hc)) c' h

/-- Every step preserves "the registry is clean while a receiver is alive":
the registry `Vec` owns each entry's producer half and itself lives as long as
any handle does, so producer halves are dropped only by `destroy`, which
requires that no receiver (and no sender) is left. -/
theorem step_preserves_clean {T : Type} {g g' : GroupState T} (h : Step g g')
    (hinv : 0 < g.receivers → cleanRegistry g) :
    0 < g'.receivers → cleanRegistry g' := by
  cases h with
  | trySendStep msg =>
    intro hr c' hc'
    exact fanOutWith_clean (Or.inl rfl) msg g.registry (hinv hr) c' hc'
  | sendStep msg =>
    intro hr c' hc'
    exact fanOutWith_clean (Or.inr rfl) msg g.registry (hinv hr) c' hc'
  | senderClone hs =>
    intro hr c' hc'
    exact hinv hr c' hc'
  | receiverClone cap hr0 =>
    intro _ c' hc'
    rcases List.mem_append.mp hc' with h1 | h1
    · exact hinv hr0 c' h1
    · rcases List.mem_singleton.mp h1 with rfl
      rfl
  | tryRecvStep i c c' x hget hrecv =>
    intro hr a ha
    rcases modifyIdx_mem _ g.registry i a ha with h1 | ⟨b, _, h2⟩
    · exact hinv hr a h1
    · rw [h2, (Channel.try_recv_ok hrecv).2.2]
      exact hinv hr c (List.getElem?_mem hget)
  | dropSender hs =>
    intro hr c' hc'
    exact hinv hr c' hc'
  | dropReceiver i hr0 =>
    intro hr a ha
    rcases modifyIdx_mem _ g.registry i a ha with h1 | ⟨b, hb, h2⟩
    · exact hinv hr0 a h1
    · rw [h2]
      exact hinv hr0 b hb
  | destroy hs0 hr0 =>
    intro hr
    exact absurd hr (by simp [hr0])

/-- In every reachable state with a live receiver, no producer half has been
dropped. -/
theorem reachable_clean {T : Type} {cap : Option Nat} {g : GroupState T}
    (h : Reachable (initGroup cap) g) :
    0 < g.receivers → cleanRegistry g := by
  induction h with
  | refl =>
    intro _ c hc
    rcases List.mem_singleton.mp hc with rfl
    rfl
  | tail _ hstep ih => exact step_preserves_clean hstep ih

/-! ### Claims -/

/-- C1: for every broadcast group whose receivers were all created before a
sequence of messages is sent (so every private channel's buffer is empty),
if every `try_send`/`send` of the sequence returns `Ok`, then every receiver's
channel — every registry entry — drained by as many `try_recv` calls as there
are messages yields exactly those messages, in send order. -/
theorem fanout_correct {T : Type} (reg : List (Channel T))
    (calls : List (SendCall T))
    (hempty : ∀ c ∈ reg, c.buffer = [])
    (hok : (sendCalls reg calls).1 = true) :
    ∀ (i : Nat) (c' : Channel T), (sendCalls reg calls).2[i]? = some c' →
      (tryRecvMany (msgsOf calls).length c').1 = msgsOf calls := by
  intro i c' hi
  rw [sendCalls_true calls reg hok, List.getElem?_map] at hi
  cases hr : reg[i]? with
  | none => rw [hr] at hi; simp at hi
  | some c =>
    rw [hr] at hi
    simp only [Option.map_some', Option.some.injEq] at hi
    have hc : c.buffer = [] := hempty c (List.getElem?_mem hr)
    apply tryRecvMany_of_buffer
    rw [← hi]
    simp [hc]

/-- Witness for C1: two receivers, `try_send 1` then `send 2`, both `Ok`;
each receiver's channel then drains to `[1, 2]`. -/
theorem fanout_correct_witness :
    (tryRecvMany 2 chanOneTwo).1 = [1, 2] :=
  fanout_correct [freshChannel none, freshChannel none]
    [SendCall.trys 1, SendCall.asyncs 2] (by decide) rfl 0 chanOneTwo rfl

/-- C2: if the fan-out of `Sender::try_send` (or the per-entry step of
`Sender::send`) hits a `Full`/`Closed` error, the operation stops at the first
failing entry and returns that error carrying the message value being sent;
every earlier entry already received the message (its buffer grew by exactly
that message), and every entry from the failing one on is unchanged — no
rollback. -/
theorem trySend_fail_fast {T : Type} {step} (hstep : isFanStep (T := T) step)
    (reg : List (Channel T)) (msg : T) (e : TrySendError T)
    (herr : (fanOutWith step msg reg).1 = some e) :
    e.payload = msg ∧
    (fanOutWith step msg reg).2.length = reg.length ∧
    ∃ i, i < reg.length ∧
      (∃ c, reg[i]? = some c ∧ step c msg = .error e) ∧
      (∀ j, j < i → ∃ c c', reg[j]? = some c ∧
        (fanOutWith step msg reg).2[j]? = some c' ∧ step c msg = .ok c' ∧
        c'.buffer = c.buffer ++ [msg]) ∧
      (∀ j, i ≤ j → (fanOutWith step msg reg).2[j]? = reg[j]?) := by
  obtain ⟨hlen, i, hi, hfail, hbefore, hafter⟩ := fanOutWith_some reg e herr
  have hpay : e.payload = msg := by
    obtain ⟨c, _, hc⟩ := hfail
    exact isFanStep_error_payload hstep hc
  refine ⟨hpay, hlen, i, hi, hfail, ?_, hafter⟩
  intro j hj
  obtain ⟨c, c', h1, h2, h3⟩ := hbefore j hj
  exact ⟨c, c', h1, h2, h3, by rw [isFanStep_ok hstep h3]⟩

/-- Witness for C2: a full `bounded(1)` entry followed by a fresh entry;
`try_send 7` fails fast with `Full 7`. -/
theorem trySend_fail_fast_witness :
    (TrySendError.full (7 : Nat)).payload = 7 ∧
    (fanOutWith Channel.try_send 7 regFullThenFresh).2.length =
      regFullThenFresh.length ∧
    ∃ i, i < regFullThenFresh.length ∧
      (∃ c, regFullThenFresh[i]? = some c ∧
        Channel.try_send c 7 = .error (TrySendError.full 7)) ∧
      (∀ j, j < i → ∃ c c', regFullThenFresh[j]? = some c ∧
        (fanOutWith Channel.try_send 7 regFullThenFresh).2[j]? = some c' ∧
        Channel.try_send c 7 = .ok c' ∧ c'.buffer = c.buffer ++ [7]) ∧
      (∀ j, i ≤ j →
        (fanOutWith Channel.try_send 7 regFullThenFresh).2[j]? =
          regFullThenFresh[j]?) :=
  trySend_fail_fast (Or.inl rfl) regFullThenFresh 7 (TrySendError.full 7) rfl

/-- Reading back a registry that was just written into the store. -/
theorem getD_set_eq {T : Type} (st : Store T) (i : Nat) (x : List (Channel T))
    (h : i < st.length) : (st.set i x).getD i [] = x := by
  simp [List.getD, List.getElem?_set_eq h]

/-- C3: a `Receiver` cloned after some messages were already sent starts with
an empty private channel (it observes none of the earlier messages); after any
all-`Ok` sequence of later sends its channel holds exactly those later
messages, so its `try_recv` yields only messages sent after the clone. -/
theorem late_join_isolation {T : Type} (st : Store T) (r : Receiver)
    (reg : List (Channel T)) (calls : List (SendCall T))
    (hreg : r.reg < st.length) (hget : st.getD r.reg [] = reg)
    (hok : (sendCalls (reg ++ [freshChannel r.cap]) calls).1 = true) :
    (Receiver.clone st r).2.idx = reg.length ∧
    (Receiver.clone st r).1.getD r.reg [] = reg ++ [freshChannel r.cap] ∧
    (freshChannel (T := T) r.cap).buffer = [] ∧
    ∃ c, (sendCalls (reg ++ [freshChannel r.cap]) calls).2[reg.length]? = some c ∧
      c.buffer = msgsOf calls ∧
      (tryRecvMany (msgsOf calls).length c).1 = msgsOf calls := by
  refine ⟨by show (st.getD r.reg []).length = reg.length; rw [hget], ?_, rfl, ?_⟩
  · show (st.set r.reg _).getD r.reg [] = _
    rw [getD_set_eq st r.reg _ hreg, hget]
    rfl
  · refine ⟨{ freshChannel (T := T) r.cap with buffer := msgsOf calls }, ?_, rfl, ?_⟩
    · rw [sendCalls_true calls _ hok, List.getElem?_map]
      have : (reg ++ [freshChannel (T := T) r.cap])[reg.length]? =
          some (freshChannel r.cap) := List.getElem?_concat_length reg _
      rw [this]
      rfl
    · exact tryRecvMany_of_buffer (msgsOf calls) _ rfl

/-- Witness for C3 (spec scenario C): `unbounded()`, send `1`, clone the
receiver, send `2`; the clone's channel holds `[2]` only. -/
theorem late_join_isolation_witness :
    (Receiver.clone [[⟨none, [1], false, false⟩]]
      { reg := 0, idx := 0, cap := none }).2.idx = 1 ∧
    (Receiver.clone [[⟨none, [1], false, false⟩]]
      { reg := 0, idx := 0, cap := none }).1.getD 0 [] =
      [⟨none, [1], false, false⟩] ++ [freshChannel none] ∧
    (freshChannel (T := Nat) none).buffer = [] ∧
    ∃ c, (sendCalls ([(⟨none, [1], false, false⟩ : Channel Nat)] ++
        [freshChannel none]) [SendCall.trys 2]).2[1]? = some c ∧
      c.buffer = msgsOf [SendCall.trys 2] ∧
      (tryRecvMany (msgsOf [SendCall.trys (2 : Nat)]).length c).1 =
        msgsOf [SendCall.trys 2] :=
  late_join_isolation [[⟨none, [1], false, false⟩]]
    { reg := 0, idx := 0, cap := none } [⟨none, [1], false, false⟩]
    [SendCall.trys 2] (by decide) rfl rfl

/-- C4: `Receiver::clone` builds exactly one new channel with the cloning
receiver's stored capacity policy, appends it to the shared registry (removing
nothing), and returns a `Receiver` with the same registry reference, the new
channel's consumer half, and the same capacity value. -/
theorem receiver_clone_spec {T : Type} (st : Store T) (r : Receiver)
    (hreg : r.reg < st.length) :
    (Receiver.clone st r).2.reg = r.reg ∧
    (Receiver.clone st r).2.cap = r.cap ∧
    (Receiver.clone st r).2.idx = (st.getD r.reg []).length ∧
    (Receiver.clone st r).1.getD r.reg [] =
      (st.getD r.reg []) ++ [freshChannel r.cap] ∧
    ((Receiver.clone st r).1.getD r.reg []).length =
      (st.getD r.reg []).length + 1 ∧
    (∀ j, j < (st.getD r.reg []).length →
      ((Receiver.clone st r).1.getD r.reg [])[j]? = (st.getD r.reg [])[j]?) := by
  have hset : (Receiver.clone st r).1.getD r.reg [] =
      (st.getD r.reg []) ++ [freshChannel r.cap] := by
    show (st.set r.reg _).getD r.reg [] = _
    rw [getD_set_eq st r.reg _ hreg]
    rfl
  refine ⟨rfl, rfl, rfl, hset, by rw [hset]; simp, ?_⟩
  intro j hj
  rw [hset]
  exact List.getElem?_append_left hj

/-- Witness for C4: cloning the sole receiver of a fresh unbounded group. -/
theorem receiver_clone_spec_witness :
    (Receiver.clone [[freshChannel (T := Nat) none]]
      { reg := 0, idx := 0, cap := (none : Option Nat) }).2.reg = 0 ∧
    (Receiver.clone [[freshChannel (T := Nat) none]]
      { reg := 0, idx := 0, cap := none }).2.cap = none ∧
    (Receiver.clone [[freshChannel (T := Nat) none]]
      { reg := 0, idx := 0, cap := none }).2.idx =
      (([[freshChannel (T := Nat) none]] : Store Nat).getD 0 []).length ∧
    (Receiver.clone [[freshChannel (T := Nat) none]]
      { reg := 0, idx := 0, cap := none }).1.getD 0 [] =
      (([[freshChannel (T := Nat) none]] : Store Nat).getD 0 []) ++
        [freshChannel none] ∧
    ((Receiver.clone [[freshChannel (T := Nat) none]]
      { reg := 0, idx := 0, cap := none }).1.getD 0 []).length =
      (([[freshChannel (T := Nat) none]] : Store Nat).getD 0 []).length + 1 ∧
    (∀ j, j < (([[freshChannel (T := Nat) none]] : Store Nat).getD 0 []).length →
      ((Receiver.clone [[freshChannel (T := Nat) none]]
        { reg := 0, idx := 0, cap := none }).1.getD 0 [])[j]? =
        (([[freshChannel (T := Nat) none]] : Store Nat).getD 0 [])[j]?) :=
  receiver_clone_spec [[freshChannel (T := Nat) none]]
    { reg := 0, idx := 0, cap := none } (by decide)

/-- C5: `bounded(cap)` and `unbounded()` each create exactly one channel,
place its producer half as the sole entry of a freshly created registry, and
return a `Sender` and a `Receiver` sharing that registry, the `Receiver`
holding the channel's consumer half (index 0) and the capacity configuration
(`some cap` for bounded, `none` for unbounded). -/
theorem construction_spec {T : Type} (st : Store T) (cap : Nat) :
    bounded (T := T) st cap = broadcast_channel st (some cap) ∧
    unbounded (T := T) st = broadcast_channel st none ∧
    ∀ copt : Option Nat,
      broadcast_channel (T := T) st copt =
        (st ++ [[freshChannel copt]], { reg := st.length },
         { reg := st.length, idx := 0, cap := copt }) ∧
      (st ++ [[freshChannel (T := T) copt]]).getD st.length [] =
        [freshChannel copt] ∧
      ([freshChannel (T := T) copt]).length = 1 := by
  refine ⟨rfl, rfl, ?_⟩
  intro copt
  refine ⟨rfl, ?_, rfl⟩
  simp [List.getD, List.getElem?_concat_length]

/-- C6: the registry entry count is monotonically non-decreasing under every
operation: `try_send` and `send` never add, remove or reorder entries (whether
they succeed or fail — each index keeps its channel, only that channel's
buffer may grow), `Receiver::clone` only appends, and no modelled operation
compacts entries away. -/
theorem registry_monotone {T : Type} (msg : T) (reg : List (Channel T))
    (i : Nat) (c : Channel T) (st : Store T) (r : Receiver)
    (g g' : GroupState T)
    (hi : reg[i]? = some c) (hr : r.reg < st.length) (hstep : Step g g') :
    (fanOutWith Channel.try_send msg reg).2.length = reg.length ∧
    (∃ c', (fanOutWith Channel.try_send msg reg).2[i]? = some c' ∧
      c'.cap = c.cap ∧ c'.receiverDropped = c.receiverDropped ∧
      c'.senderDropped = c.senderDropped ∧
      (c'.buffer = c.buffer ∨ c'.buffer = c.buffer ++ [msg])) ∧
    (fanOutWith Channel.sendStep msg reg).2.length = reg.length ∧
    (∃ c', (fanOutWith Channel.sendStep msg reg).2[i]? = some c' ∧
      c'.cap = c.cap ∧ c'.receiverDropped = c.receiverDropped ∧
      c'.senderDropped = c.senderDropped ∧
      (c'.buffer = c.buffer ∨ c'.buffer = c.buffer ++ [msg])) ∧
    (Receiver.clone st r).1.getD r.reg [] =
      (st.getD r.reg []) ++ [freshChannel r.cap] ∧
    g.registry.length ≤ g'.registry.length := by
  refine ⟨fanOutWith_length msg reg,
    fanOutWith_getElem (Or.inl rfl) msg reg i c hi,
    fanOutWith_length msg reg,
    fanOutWith_getElem (Or.inr rfl) msg reg i c hi,
    ?_, step_registry_mono hstep⟩
  show (st.set r.reg _).getD r.reg [] = _
  rw [getD_set_eq st r.reg _ hr]
  rfl

/-- Witness for C6 at the smallest concrete group: a one-entry registry, a
clone of its receiver, and a `dropSender` step. -/
theorem registry_monotone_witness :
    (fanOutWith Channel.try_send 5 [freshChannel none]).2.length =
      ([freshChannel (T := Nat) none]).length ∧
    (∃ c', (fanOutWith Channel.try_send 5 [freshChannel none]).2[0]? = some c' ∧
      c'.cap = (freshChannel (T := Nat) none).cap ∧
      c'.receiverDropped = (freshChannel (T := Nat) none).receiverDropped ∧
      c'.senderDropped = (freshChannel (T := Nat) none).senderDropped ∧
      (c'.buffer = (freshChannel (T := Nat) none).buffer ∨
        c'.buffer = (freshChannel (T := Nat) none).buffer ++ [5])) ∧
    (fanOutWith Channel.sendStep 5 [freshChannel none]).2.length =
      ([freshChannel (T := Nat) none]).length ∧
    (∃ c', (fanOutWith Channel.sendStep 5 [freshChannel none]).2[0]? = some c' ∧
      c'.cap = (freshChannel (T := Nat) none).cap ∧
      c'.receiverDropped = (freshChannel (T := Nat) none).receiverDropped ∧
      c'.senderDropped = (freshChannel (T := Nat) none).senderDropped ∧
      (c'.buffer = (freshChannel (T := Nat) none).buffer ∨
        c'.buffer = (freshChannel (T := Nat) none).buffer ++ [5])) ∧
    (Receiver.clone [[freshChannel (T := Nat) none]]
      { reg := 0, idx := 0, cap := none }).1.getD 0 [] =
      (([[freshChannel (T := Nat) none]] : Store Nat).getD 0 []) ++
        [freshChannel none] ∧
    (initGroup (T := Nat) none).registry.length ≤
      ({ senders := 0, receivers := 1,
         registry := [freshChannel none] } : GroupState Nat).registry.length :=
  registry_monotone 5 [freshChannel none] 0 (freshChannel none)
    [[freshChannel none]] { reg := 0, idx := 0, cap := none }
    (initGroup none)
    { senders := 0, receivers := 1, registry := [freshChannel none] }
    rfl (by decide) (Step.dropSender (initGroup none) (by decide))

/-- C7: `Sender::clone` duplicates the registry reference — the clone is the
very same handle value, no new channel or registry is created — so `try_send`
and `send` from the clone have exactly the same fan-out effect (same
deliveries, same result) as from the original, on every store and message. -/
theorem sender_clone_alias {T : Type} (st : Store T) (s : Sender) (msg : T) :
    Sender.clone s = s ∧
    Sender.try_send (Sender.clone s) st msg = Sender.try_send s st msg ∧
    Sender.send (Sender.clone s) st msg = Sender.send s st msg :=
  ⟨rfl, rfl, rfl⟩

/-- C8: `try_send` against a registry holding at least one entry whose
consumer half was dropped returns an error, never success; against a
zero-entry registry it trivially succeeds; and in spec scenario D
(`unbounded()`, drop the sole receiver, `try_send msg`) the result is
`Closed msg` with no state change. -/
theorem closed_entry_send {T : Type} (reg : List (Channel T)) (msg msg2 : T)
    (hdead : ∃ c ∈ reg, c.receiverDropped = true) :
    (fanOutWith Channel.try_send msg reg).1 ≠ none ∧
    fanOutWith Channel.try_send msg2 ([] : List (Channel T)) = (none, []) ∧
    Sender.try_send (unbounded ([] : Store T)).2.1
        (Receiver.drop (unbounded ([] : Store T)).1
          (unbounded ([] : Store T)).2.2) msg2 =
      (some (.closed msg2),
        Receiver.drop (unbounded ([] : Store T)).1
          (unbounded ([] : Store T)).2.2) := by
  refine ⟨?_, rfl, rfl⟩
  clear msg2
  induction reg with
  | nil =>
    obtain ⟨c, hc, _⟩ := hdead
    cases hc
  | cons c0 rest ih =>
    obtain ⟨c, hc, hdrop⟩ := hdead
    simp only [fanOutWith]
    cases hs : Channel.try_send c0 msg with
    | error e => simp
    | ok c0' =>
      dsimp only
      rcases List.mem_cons.mp hc with h1 | h1
      · subst h1
        exfalso
        unfold Channel.try_send at hs
        rw [hdrop] at hs
        simp at hs
      · exact ih ⟨c, h1, hdrop⟩

/-- Witness for C8: the one-entry registry whose channel's consumer half is
dropped. -/
theorem closed_entry_send_witness :
    (fanOutWith Channel.try_send 1 regDead).1 ≠ none ∧
    fanOutWith Channel.try_send 2 ([] : List (Channel Nat)) = (none, []) ∧
    Sender.try_send (unbounded ([] : Store Nat)).2.1
        (Receiver.drop (unbounded ([] : Store Nat)).1
          (unbounded ([] : Store Nat)).2.2) 2 =
      (some (.closed 2),
        Receiver.drop (unbounded ([] : Store Nat)).1
          (unbounded ([] : Store Nat)).2.2) :=
  closed_entry_send regDead 1 2 (by decide)

/-- C10: dropping every `Sender` handle never closes a receiver's channel:
in any reachable group state with a live `Receiver` and no `Sender` left, a
receiver's `try_recv` on an empty private channel returns `Empty`, not
`Closed`, because the registry (owned by the receivers too) still holds every
channel's producer half. -/
theorem drop_senders_recv_empty {T : Type} (cap : Option Nat)
    (g : GroupState T) (hreach : Reachable (initGroup cap) g)
    (halive : 0 < g.receivers) (hnosenders : g.senders = 0)
    (i : Nat) (c : Channel T) (hc : g.registry[i]? = some c)
    (hb : c.buffer = []) :
    Channel.try_recv c = .error .empty := by
  have hsd : c.senderDropped = false :=
    reachable_clean hreach halive c (List.getElem?_mem hc)
  obtain ⟨cp, buf, rd, sd⟩ := c
  simp only at hb hsd
  subst hb
  subst hsd
  rfl

/-- Witness for C10: create an unbounded group, drop its only `Sender`; the
surviving receiver's empty channel reports `Empty`. -/
theorem drop_senders_recv_empty_witness :
    Channel.try_recv (freshChannel (T := Nat) none) = .error .empty :=
  drop_senders_recv_empty none
    { senders := 0, receivers := 1, registry := [freshChannel none] }
    (Reachable.tail Reachable.refl (Step.dropSender (initGroup none) (by decide)))
    (by decide) rfl 0 (freshChannel none) rfl rfl

end AsyncBroadcast
